import Mathlib

/-!
Shallow embedding of the Work-Tracker engine core:
the recurrence engine (`nextDueDate`, `generateNextInstance`,
`checkAndGenerateRecurring`), the alert engine (`alertId`, `computeAlerts`),
the mutation/changelog engine (`makeChangelog` and the per-task body of the
store's `updateTask`, here `applyUpdate`, plus the sub-entity operations of
the task store), and the project store's `deleteProject` together with the
project panel's `handleDelete`.

Conventions of the embedding:
* Calendar dates (the `yyyy-MM-dd` strings of the source, always handled
  through `parseISO` / `format` and then truncated to midnight) are modelled
  by the `Date` structure; the date-fns operations `addDays`, `addWeeks`,
  `addMonths`, `addQuarters`, `isBefore`, `isToday`, `isAfter` are modelled
  through a day-number conversion (proleptic Gregorian civil-from-days /
  days-from-civil) and calendar month arithmetic with end-of-month clamping,
  which is date-fns's documented behaviour.
* Instants (`new Date().toISOString()`) are modelled as opaque strings passed
  in as a `now` parameter: each engine call happens at one tick.
* The uuid source (`uuidv4()`) is modelled as a function `ids : Nat → String`
  supplying the fresh ids an operation draws, in order.
* JavaScript `Partial<Task>` patches are modelled by the `Patch` structure:
  an outer `Option` is key presence; for Task fields that are themselves
  optional an inner `Option` is the (possibly `undefined`) value.
-/

namespace WorkTracker

/-- A calendar date (year, month 1..12, day 1..31), the midnight-truncated
value of a parsed `yyyy-MM-dd` string. -/
structure Date where
  year : Int
  month : Int
  day : Int
deriving DecidableEq, Repr

/-- Days since 1970-01-01 of a civil date (Howard Hinnant's
`days_from_civil`), the arithmetic core behind date-fns day comparisons. -/
def civilToDays (y m d : Int) : Int :=
  let y := if m ≤ 2 then y - 1 else y
  let era := Int.fdiv y 400
  let yoe := y - era * 400
  let doy := (153 * (if m > 2 then m - 3 else m + 9) + 2) / 5 + d - 1
  let doe := yoe * 365 + yoe / 4 - yoe / 100 + doy
  era * 146097 + doe - 719468

/-- Civil date from days since 1970-01-01 (Hinnant's `civil_from_days`). -/
def daysToCivil (z : Int) : Date :=
  let z := z + 719468
  let era := Int.fdiv z 146097
  let doe := z - era * 146097
  let yoe := (doe - doe / 1460 + doe / 36524 - doe / 146096) / 365
  let y := yoe + era * 400
  let doy := doe - (365 * yoe + yoe / 4 - yoe / 100)
  let mp := (5 * doy + 2) / 153
  let d := doy - (153 * mp + 2) / 5 + 1
  let m := if mp < 10 then mp + 3 else mp - 9
  ⟨if m ≤ 2 then y + 1 else y, m, d⟩

/-- Day number of a `Date`; all date-fns comparisons on midnight-truncated
dates go through this. -/
def Date.dnum (d : Date) : Int := civilToDays d.year d.month d.day

/-- date-fns `addDays` (also used with negative offsets). -/
def addDays (d : Date) (n : Int) : Date := daysToCivil (d.dnum + n)

/-- date-fns `addWeeks`. -/
def addWeeks (d : Date) (n : Int) : Date := addDays d (7 * n)

/-- Gregorian leap year test. -/
def isLeap (y : Int) : Bool := y % 4 = 0 && (y % 100 ≠ 0 || y % 400 = 0)

/-- Length of a month. -/
def daysInMonth (y m : Int) : Int :=
  if m = 2 then (if isLeap y then 29 else 28)
  else if m = 4 ∨ m = 6 ∨ m = 9 ∨ m = 11 then 30
  else 31

/-- date-fns `addMonths`: calendar month arithmetic with end-of-month
clamping (Jan 31 + 1 month = Feb 29 in a leap year). -/
def addMonths (d : Date) (n : Int) : Date :=
  let tm := d.year * 12 + (d.month - 1) + n
  let y := Int.fdiv tm 12
  let m := tm - y * 12 + 1
  ⟨y, m, min d.day (daysInMonth y m)⟩

/-- date-fns `addQuarters` (3-month units). -/
def addQuarters (d : Date) (n : Int) : Date := addMonths d (3 * n)

/-- date-fns `isBefore` on midnight-truncated dates. -/
def dateLt (a b : Date) : Bool := a.dnum < b.dnum

/-- date-fns `isToday` relative to the ambient day, and date equality of
midnight-truncated dates generally. -/
def dateEq (a b : Date) : Bool := a.dnum = b.dnum

/-! ## Data model (src/types/index.ts) -/

/-- The `TaskStatus` closed union. -/
inductive TaskStatus where
  | notStarted | inProgress | blocked | underReview | complete | cancelled
deriving DecidableEq, Repr

/-- The string literal of a `TaskStatus` (for `String(...)` rendering). -/
def TaskStatus.text : TaskStatus → String
  | .notStarted => "Not Started"
  | .inProgress => "In Progress"
  | .blocked => "Blocked"
  | .underReview => "Under Review"
  | .complete => "Complete"
  | .cancelled => "Cancelled"

/-- The `Priority` closed union. -/
inductive Priority where
  | critical | high | medium | low
deriving DecidableEq, Repr

/-- The string literal of a `Priority`. -/
def Priority.text : Priority → String
  | .critical => "Critical"
  | .high => "High"
  | .medium => "Medium"
  | .low => "Low"

/-- The `MilestoneStatus` closed union. -/
inductive MilestoneStatus where
  | upcoming | msInProgress | achieved | missed
deriving DecidableEq, Repr

/-- Subtask status union of Open and Done. -/
inductive SubtaskStatus where
  | open | done
deriving DecidableEq, Repr

/-- An `UpdateEntry`: a free-text progress note. -/
structure UpdateEntry where
  id : String
  timestamp : String
  text : String
deriving DecidableEq, Repr

/-- A `ChangelogEntry`: one immutable audit record of a field change. -/
structure ChangelogEntry where
  id : String
  timestamp : String
  field : String
  oldValue : String
  newValue : String
deriving DecidableEq, Repr

/-- A `TaskLink`. -/
structure TaskLink where
  id : String
  label : String
  url : String
deriving DecidableEq, Repr

/-- A `Subtask`. -/
structure Subtask where
  id : String
  title : String
  status : SubtaskStatus
  dueDate : Option Date
deriving DecidableEq, Repr

/-- A `Milestone`. -/
structure Milestone where
  id : String
  name : String
  targetDate : Date
  status : MilestoneStatus
deriving DecidableEq, Repr

/-- A `RecurrenceConfig`. The pattern is kept as the runtime string so the
`switch` default branch of `nextDueDate` stays reachable, as it is for data
arriving through JSON import. -/
structure RecurrenceConfig where
  pattern : String
  interval : Nat
  nextDue : Option Date
  lastCompleted : Option String
  cycleCount : Nat
deriving DecidableEq, Repr

/-- A `Task`. The `taskType` is kept as its runtime string. -/
structure Task where
  id : String
  title : String
  description : Option String
  taskType : String
  status : TaskStatus
  priority : Priority
  dueDate : Date
  startDate : Option Date
  assignee : Option String
  updates : List UpdateEntry
  notes : Option String
  subtasks : List Subtask
  milestones : List Milestone
  isRecurring : Bool
  recurrence : Option RecurrenceConfig
  reminderDays : Nat
  createdAt : String
  updatedAt : String
  completedAt : Option String
  changelog : List ChangelogEntry
  isPaused : Option Bool
  links : List TaskLink
  projectId : Option String
deriving DecidableEq, Repr

/-- A `Project`. -/
structure Project where
  id : String
  name : String
  description : Option String
  status : String
  priority : Priority
  targetDate : Date
  startDate : Option Date
  owner : Option String
  links : List TaskLink
  createdAt : String
  updatedAt : String
deriving DecidableEq, Repr

/-! ## Mutation/changelog engine (src/store/taskStore.ts)

The store's `updateTask(id, updates)` maps over the collection and, for the
matching task, rebuilds it as
`{ ...task, ...updates, completedAt, updatedAt: now, changelog: [...] }`.
The per-task body is `applyUpdate` below.  A JS patch key that is present
with value `undefined` still counts as present (it is enumerated by
`Object.entries` and overwrites on spread), hence the nested `Option`s for
the optional Task fields. -/

/-- JS `String(...)` of an array of `n` objects: `"[object Object]"` per
element, joined with `","` (empty string for the empty array). -/
def jsArrayText (n : Nat) : String :=
  String.intercalate "," (List.replicate n "[object Object]")

/-- Left-pad a numeral to two digits, as `format(..., 'yyyy-MM-dd')` does. -/
def pad2 (n : Int) : String :=
  let s := toString n.natAbs
  if s.length < 2 then "0" ++ s else s

/-- Left-pad a numeral to four digits. -/
def pad4 (n : Int) : String :=
  let s := toString n.natAbs
  if s.length < 4 then String.mk (List.replicate (4 - s.length) '0') ++ s else s

/-- The `yyyy-MM-dd` text of a date (date-fns `format`). -/
def Date.text (d : Date) : String :=
  pad4 d.year ++ "-" ++ pad2 d.month ++ "-" ++ pad2 d.day

/-- JS `String(x ?? '')` for an optional string. -/
def optText (o : Option String) : String := o.getD ""

/-- JS `String(x ?? '')` for an optional object (`undefined` renders as the
empty string, an object as `"[object Object]"`). -/
def objText {α : Type} (o : Option α) : String :=
  match o with
  | none => ""
  | some _ => "[object Object]"

/-- A runtime `Partial<Task>` patch as fed to the store's `updateTask`.
The outer `Option` is key presence; for Task fields that are themselves
optional the inner `Option` is the (possibly `undefined`) assigned value.
`id`, `createdAt` and `changelog` are never patched by any caller and are
omitted. -/
structure Patch where
  title : Option String := none
  status : Option TaskStatus := none
  priority : Option Priority := none
  dueDate : Option Date := none
  completedAt : Option (Option String) := none
  updates : Option (List UpdateEntry) := none
  subtasks : Option (List Subtask) := none
  milestones : Option (List Milestone) := none
  recurrence : Option (Option RecurrenceConfig) := none
  projectId : Option (Option String) := none
  updatedAt : Option String := none
deriving DecidableEq, Repr

/-- One key of `Object.entries(updates)`: when the key is present, its
`(field, String(oldValue ?? ''), String(newValue ?? ''))` triple. -/
def optEntry {α : Type} (name old : String) (new : α → String) (o : Option α) : List (String × String × String) :=
  match o with
  | some v => [(name, old, new v)]
  | none => []

/-- The `(field, String(oldValue ?? ''), String(newValue ?? ''))` triple for
every key present in the patch, in the fixed field order of the `Task`
record (the embedding's stand-in for `Object.entries` insertion order);
the reserved `updatedAt` key is filtered out exactly as in the source. -/
def presentFields (t : Task) (p : Patch) : List (String × String × String) :=
  optEntry "title" t.title (fun v => v) p.title ++
  optEntry "status" t.status.text (fun v => v.text) p.status ++
  optEntry "priority" t.priority.text (fun v => v.text) p.priority ++
  optEntry "dueDate" t.dueDate.text (fun v => v.text) p.dueDate ++
  optEntry "completedAt" (optText t.completedAt) optText p.completedAt ++
  optEntry "updates" (jsArrayText t.updates.length) (fun v => jsArrayText v.length) p.updates ++
  optEntry "subtasks" (jsArrayText t.subtasks.length) (fun v => jsArrayText v.length) p.subtasks ++
  optEntry "milestones" (jsArrayText t.milestones.length) (fun v => jsArrayText v.length) p.milestones ++
  optEntry "recurrence" (objText t.recurrence) objText p.recurrence ++
  optEntry "projectId" (optText t.projectId) optText p.projectId

/-- The `makeChangelog` synthesis applied along a list of field triples, drawing fresh ids
`ids k, ids (k+1), ...` from the uuid source and stamping each entry with
the current instant. -/
def mkEntries (ids : Nat → String) (now : String) : Nat → List (String × String × String) → List ChangelogEntry
  | _, [] => []
  | k, (f, o, n) :: rest => ⟨ids k, now, f, o, n⟩ :: mkEntries ids now (k + 1) rest

/-- The changelog entries synthesized by one `updateTask` call. -/
def patchEntries (now : String) (ids : Nat → String) (t : Task) (p : Patch) : List ChangelogEntry :=
  mkEntries ids now 0 (presentFields t p)

/-- The per-task body of the store's `updateTask`:
`{ ...task, ...updates, completedAt, updatedAt: now, changelog: [...task.changelog, ...entries] }`.
The `completedAt` and `updatedAt` listed after the spread overwrite any
patched value, exactly as in the object literal of the source. -/
def applyUpdate (now : String) (ids : Nat → String) (t : Task) (p : Patch) : Task :=
  let entries := patchEntries now ids t p
  let completedAt :=
    if p.status = some TaskStatus.complete ∧ t.status ≠ TaskStatus.complete then some now
    else if p.status ≠ some TaskStatus.complete ∧ p.status ≠ none then none
    else t.completedAt
  { t with
    title := p.title.getD t.title
    status := p.status.getD t.status
    priority := p.priority.getD t.priority
    dueDate := p.dueDate.getD t.dueDate
    updates := p.updates.getD t.updates
    subtasks := p.subtasks.getD t.subtasks
    milestones := p.milestones.getD t.milestones
    recurrence := match p.recurrence with | some v => v | none => t.recurrence
    projectId := match p.projectId with | some v => v | none => t.projectId
    completedAt := completedAt
    updatedAt := now
    changelog := t.changelog ++ entries }

/-- Store `updateTask`: map over the collection, rebuilding the task whose
id matches. -/
def updateTask (now : String) (ids : Nat → String) (tasks : List Task) (id : String) (p : Patch) : List Task :=
  tasks.map fun t => if t.id = id then applyUpdate now ids t p else t

/-- Store `deleteTask`: `tasks.filter(t => t.id !== id)`. -/
def deleteTask (tasks : List Task) (id : String) : List Task :=
  tasks.filter fun t => t.id ≠ id

/-- A runtime `Partial<Subtask>` patch. -/
structure SubtaskPatch where
  id : Option String := none
  title : Option String := none
  status : Option SubtaskStatus := none
  dueDate : Option (Option Date) := none
deriving DecidableEq, Repr

/-- JS spread merge `{ ...s, ...updates }` for a subtask. -/
def applySubtaskPatch (s : Subtask) (u : SubtaskPatch) : Subtask :=
  { id := u.id.getD s.id
    title := u.title.getD s.title
    status := u.status.getD s.status
    dueDate := match u.dueDate with | some v => v | none => s.dueDate }

/-- Per-task body of the store's `updateSubtask`: merge the patch into the
matching subtask and stamp the task's `updatedAt`. -/
def updateSubtaskTask (now subtaskId : String) (u : SubtaskPatch) (t : Task) : Task :=
  { t with
    subtasks := t.subtasks.map fun s => if s.id = subtaskId then applySubtaskPatch s u else s
    updatedAt := now }

/-- Store `updateSubtask`. -/
def updateSubtask (now : String) (tasks : List Task) (taskId subtaskId : String) (u : SubtaskPatch) : List Task :=
  tasks.map fun t => if t.id = taskId then updateSubtaskTask now subtaskId u t else t

/-- Per-task body of the store's `deleteSubtask`. -/
def deleteSubtaskTask (now subtaskId : String) (t : Task) : Task :=
  { t with
    subtasks := t.subtasks.filter fun s => s.id ≠ subtaskId
    updatedAt := now }

/-- Store `deleteSubtask`. -/
def deleteSubtask (now : String) (tasks : List Task) (taskId subtaskId : String) : List Task :=
  tasks.map fun t => if t.id = taskId then deleteSubtaskTask now subtaskId t else t

/-- Per-task body of the store's `toggleSubtask`. -/
def toggleSubtaskTask (now subtaskId : String) (t : Task) : Task :=
  { t with
    subtasks := t.subtasks.map fun s =>
      if s.id = subtaskId then
        { s with status := if s.status = SubtaskStatus.done then SubtaskStatus.open else SubtaskStatus.done }
      else s
    updatedAt := now }

/-- Store `toggleSubtask`. -/
def toggleSubtask (now : String) (tasks : List Task) (taskId subtaskId : String) : List Task :=
  tasks.map fun t => if t.id = taskId then toggleSubtaskTask now subtaskId t else t

/-- Per-task body of the store's `addSubtask` (`sid` is the uuid drawn for
the new subtask). -/
def addSubtaskTask (now sid title : String) (status : SubtaskStatus) (dueDate : Option Date) (t : Task) : Task :=
  { t with subtasks := t.subtasks ++ [⟨sid, title, status, dueDate⟩], updatedAt := now }

/-- Store `addSubtask`. -/
def addSubtask (now sid : String) (tasks : List Task) (taskId : String) (title : String) (status : SubtaskStatus) (dueDate : Option Date) : List Task :=
  tasks.map fun t => if t.id = taskId then addSubtaskTask now sid title status dueDate t else t

/-- A runtime `Partial<Milestone>` patch. -/
structure MilestonePatch where
  id : Option String := none
  name : Option String := none
  targetDate : Option Date := none
  status : Option MilestoneStatus := none
deriving DecidableEq, Repr

/-- JS spread merge `{ ...m, ...updates }` for a milestone. -/
def applyMilestonePatch (m : Milestone) (u : MilestonePatch) : Milestone :=
  { id := u.id.getD m.id
    name := u.name.getD m.name
    targetDate := u.targetDate.getD m.targetDate
    status := u.status.getD m.status }

/-- Per-task body of the store's `updateMilestone`. -/
def updateMilestoneTask (now milestoneId : String) (u : MilestonePatch) (t : Task) : Task :=
  { t with
    milestones := t.milestones.map fun m => if m.id = milestoneId then applyMilestonePatch m u else m
    updatedAt := now }

/-- Store `updateMilestone`. -/
def updateMilestone (now : String) (tasks : List Task) (taskId milestoneId : String) (u : MilestonePatch) : List Task :=
  tasks.map fun t => if t.id = taskId then updateMilestoneTask now milestoneId u t else t

/-- Per-task body of the store's `deleteMilestone`. -/
def deleteMilestoneTask (now milestoneId : String) (t : Task) : Task :=
  { t with
    milestones := t.milestones.filter fun m => m.id ≠ milestoneId
    updatedAt := now }

/-- Store `deleteMilestone`. -/
def deleteMilestone (now : String) (tasks : List Task) (taskId milestoneId : String) : List Task :=
  tasks.map fun t => if t.id = taskId then deleteMilestoneTask now milestoneId t else t

/-- Per-task body of the store's `addMilestone` (`mid` is the uuid drawn for
the new milestone). -/
def addMilestoneTask (now mid name : String) (targetDate : Date) (status : MilestoneStatus) (t : Task) : Task :=
  { t with milestones := t.milestones ++ [⟨mid, name, targetDate, status⟩], updatedAt := now }

/-- Store `addMilestone`. -/
def addMilestone (now mid : String) (tasks : List Task) (taskId : String) (name : String) (targetDate : Date) (status : MilestoneStatus) : List Task :=
  tasks.map fun t => if t.id = taskId then addMilestoneTask now mid name targetDate status t else t

/-- Per-task body of the store's `addUpdate`: prepend the free-text entry
(newest first), stamp `updatedAt`, and append the
`makeChangelog('update', '', text)` record.  `uid` and `cid` are the uuids
drawn for the entry and the changelog row. -/
def addUpdateTask (now uid cid text : String) (t : Task) : Task :=
  { t with
    updates := ⟨uid, now, text⟩ :: t.updates
    updatedAt := now
    changelog := t.changelog ++ [⟨cid, now, "update", "", text⟩] }

/-- Store `addUpdate`. -/
def addUpdate (now uid cid : String) (tasks : List Task) (taskId text : String) : List Task :=
  tasks.map fun t => if t.id = taskId then addUpdateTask now uid cid text t else t

/-- One task-level mutation, as dispatched by the store operations (each
constructor carries the instant and the uuids its store call draws). -/
inductive TaskMutation where
  | update (now : String) (ids : Nat → String) (p : Patch)
  | subAdd (now sid title : String) (status : SubtaskStatus) (dueDate : Option Date)
  | subUpdate (now sid : String) (u : SubtaskPatch)
  | subDelete (now sid : String)
  | subToggle (now sid : String)
  | msAdd (now mid name : String) (targetDate : Date) (status : MilestoneStatus)
  | msUpdate (now mid : String) (u : MilestonePatch)
  | msDelete (now mid : String)
  | logUpdate (now uid cid text : String)

/-- Apply one task-level mutation through the corresponding per-task store
body. -/
def applyTaskMutation (m : TaskMutation) (t : Task) : Task :=
  match m with
  | .update now ids p => applyUpdate now ids t p
  | .subAdd now sid title status dueDate => addSubtaskTask now sid title status dueDate t
  | .subUpdate now sid u => updateSubtaskTask now sid u t
  | .subDelete now sid => deleteSubtaskTask now sid t
  | .subToggle now sid => toggleSubtaskTask now sid t
  | .msAdd now mid name targetDate status => addMilestoneTask now mid name targetDate status t
  | .msUpdate now mid u => updateMilestoneTask now mid u t
  | .msDelete now mid => deleteMilestoneTask now mid t
  | .logUpdate now uid cid text => addUpdateTask now uid cid text t

/-- Apply a sequence of task-level mutations, oldest first. -/
def applyTaskMutations (ms : List TaskMutation) (t : Task) : Task :=
  ms.foldl (fun x m => applyTaskMutation m x) t

/-- Number of keys present in a patch other than the reserved `updatedAt`. -/
def presentCount (p : Patch) : Nat :=
  (if p.title.isSome then 1 else 0) + (if p.status.isSome then 1 else 0) +
  (if p.priority.isSome then 1 else 0) + (if p.dueDate.isSome then 1 else 0) +
  (if p.completedAt.isSome then 1 else 0) + (if p.updates.isSome then 1 else 0) +
  (if p.subtasks.isSome then 1 else 0) + (if p.milestones.isSome then 1 else 0) +
  (if p.recurrence.isSome then 1 else 0) + (if p.projectId.isSome then 1 else 0)

/-! ## Recurrence engine (recurrenceEngine source file) -/

/-- Function `nextDueDate(current, pattern, interval)`: the date-fns offset selected
by the `switch` on the pattern string, `+1 week` on the default branch. -/
def nextDueDate (current : Date) (pattern : String) (interval : Nat) : Date :=
  if pattern = "Daily" then addDays current interval
  else if pattern = "Weekly" then addWeeks current interval
  else if pattern = "Bi-weekly" then addWeeks current (2 * interval)
  else if pattern = "Monthly" then addMonths current interval
  else if pattern = "Quarterly" then addQuarters current interval
  else if pattern = "Custom" then addDays current interval
  else addWeeks current 1

/-- Function `generateNextInstance(task)`: the regeneration patch, or the empty patch
when the task is not recurring or has no recurrence config.  The source's
`(cycleCount || 0) + 1` collapses to `cycleCount + 1` for a `Nat` (the
`|| 0` only guards a missing value and `0 || 0 = 0`). -/
def generateNextInstance (now : String) (t : Task) : Patch :=
  if !t.isRecurring then {} else
  match t.recurrence with
  | none => {}
  | some cfg =>
    let newDue := nextDueDate t.dueDate cfg.pattern cfg.interval
    { dueDate := some newDue
      status := some TaskStatus.notStarted
      completedAt := some none
      updates := some []
      subtasks := some (t.subtasks.map fun s => { s with status := SubtaskStatus.open })
      recurrence := some (some { cfg with
        lastCompleted := some now
        nextDue := some newDue
        cycleCount := cfg.cycleCount + 1 }) }

/-- The driving-rule guard of `checkAndGenerateRecurring`'s loop body: the
two `continue`s skip unless `isRecurring`, not `isPaused` (truthiness of the
optional flag), a recurrence config present, and `status === 'Complete'`. -/
def recGuard (t : Task) : Bool :=
  t.isRecurring && !(t.isPaused.getD false) && t.recurrence.isSome
    && t.status == TaskStatus.complete

/-- The loop body of `checkAndGenerateRecurring(tasks, updateTask)`: for a
guarded task compute the patch and, when its `dueDate` is set, apply it
through the store's `updateTask` (which operates on the live, accumulated
collection).  The source's unused midnight-truncated `today` local is dead
code and has no counterpart here. -/
def recStep (now : String) (ids : Nat → String) (acc : List Task) (t : Task) : List Task :=
  if recGuard t then
    let next := generateNextInstance now t
    if next.dueDate.isSome then updateTask now ids acc t.id next else acc
  else acc

/-- Fold of `recStep` over the snapshot, starting from the live collection
(which is the same list at call time). -/
def checkAndGenerateRecurring (now : String) (ids : Nat → String) (tasks : List Task) : List Task :=
  tasks.foldl (recStep now ids) tasks

/-! ## Alert engine (alertEngine source file) -/

/-- Alert type union. -/
inductive AlertType where
  | overdue | dueToday | atRisk | milestoneDueSoon
deriving DecidableEq, Repr

/-- The string literal of an `AlertType`, as used in the id scheme. -/
def AlertType.text : AlertType → String
  | .overdue => "overdue"
  | .dueToday => "due-today"
  | .atRisk => "at-risk"
  | .milestoneDueSoon => "milestone-due-soon"

/-- An `AlertItem`. -/
structure AlertItem where
  id : String
  type : AlertType
  taskId : String
  taskTitle : String
  milestoneId : Option String := none
  milestoneName : Option String := none
  date : Date
deriving DecidableEq, Repr

/-- Function `alertId(type, taskId, extra?)`, that is
`` `${type}:${taskId}${extra ? ':' + extra : ''}` `` — note that a falsy
`extra` (absent or the empty string) contributes nothing. -/
def alertId (ty taskId : String) (extra : Option String) : String :=
  ty ++ ":" ++ taskId ++
    (match extra with
     | some e => if e = "" then "" else ":" ++ e
     | none => "")

/-- The due-date dimension of `computeAlerts`'s loop body: the
`overdue` / `due-today` / `at-risk` else-if chain (zero or one alert).
`task.reminderDays || 2` makes a zero `reminderDays` fall back to 2. -/
def dueAlerts (today : Date) (t : Task) : List AlertItem :=
  if dateLt t.dueDate today then
    [{ id := alertId "overdue" t.id none, type := AlertType.overdue,
       taskId := t.id, taskTitle := t.title, date := t.dueDate }]
  else if dateEq t.dueDate today then
    [{ id := alertId "due-today" t.id none, type := AlertType.dueToday,
       taskId := t.id, taskTitle := t.title, date := t.dueDate }]
  else if (t.priority == Priority.critical || t.priority == Priority.high)
      && dateLt (addDays t.dueDate (-(((if t.reminderDays = 0 then 2 else t.reminderDays) : Nat) : Int))) today
      && !dateLt t.dueDate today then
    [{ id := alertId "at-risk" t.id none, type := AlertType.atRisk,
       taskId := t.id, taskTitle := t.title, date := t.dueDate }]
  else []

/-- The milestone dimension of `computeAlerts`'s loop body: one
`milestone-due-soon` alert per milestone that is neither Achieved nor
Missed, not before today, and strictly inside the `today + 3 days` window. -/
def milestoneAlerts (today : Date) (t : Task) : List AlertItem :=
  t.milestones.filterMap fun ms =>
    if ms.status == MilestoneStatus.achieved || ms.status == MilestoneStatus.missed then none
    else if !dateLt ms.targetDate today && dateLt ms.targetDate (addDays today 3) then
      some { id := alertId "milestone-due-soon" t.id (some ms.id),
             type := AlertType.milestoneDueSoon,
             taskId := t.id, taskTitle := t.title,
             milestoneId := some ms.id, milestoneName := some ms.name,
             date := ms.targetDate }
    else none

/-- One iteration of `computeAlerts`'s task loop: skip Complete/Cancelled
tasks entirely, otherwise push the due-date alert (if any) then the
milestone alerts. -/
def taskAlerts (today : Date) (t : Task) : List AlertItem :=
  if t.status == TaskStatus.complete || t.status == TaskStatus.cancelled then []
  else dueAlerts today t ++ milestoneAlerts today t

/-- Function `computeAlerts(tasks)`: the source reads `new Date()` and truncates it
to midnight; that ambient current day is reified here as the `today`
parameter. -/
def computeAlerts (today : Date) (tasks : List Task) : List AlertItem :=
  tasks.flatMap (taskAlerts today)

/-! ## Project deletion (src/store/projectStore.ts, ProjectDetailPanel) -/

/-- Store `deleteProject`: `projects.filter(p => p.id !== id)`. -/
def deleteProject (projects : List Project) (id : String) : List Project :=
  projects.filter fun p => p.id ≠ id

/-- The unlink patch `{ projectId: undefined }` sent by the panel. -/
def unlinkPatch : Patch := { projectId := some none }

/-- The panel's `handleDelete`: for every task whose `projectId` references
the project (computed from the snapshot), send `{ projectId: undefined }`
through the store's `updateTask`, then delete the project.  The uuid stream
is reused per call; no property below depends on the drawn ids. -/
def handleDelete (now : String) (ids : Nat → String) (projects : List Project) (tasks : List Task) (pid : String) : List Project × List Task :=
  let referencing := tasks.filter fun t => t.projectId = some pid
  let tasks' := referencing.foldl (fun acc t => updateTask now ids acc t.id unlinkPatch) tasks
  (deleteProject projects pid, tasks')

/-! ## Named alert literals and conditions

These repeat, as standalone definitions, the alert records and emission
conditions that appear inline in `dueAlerts` / `milestoneAlerts`, so that
theorems can characterise the engine's output declaratively. -/

/-- The overdue alert record pushed for a task. -/
def overdueAlert (t : Task) : AlertItem :=
  { id := alertId "overdue" t.id none, type := AlertType.overdue,
    taskId := t.id, taskTitle := t.title, date := t.dueDate }

/-- The due-today alert record pushed for a task. -/
def dueTodayAlert (t : Task) : AlertItem :=
  { id := alertId "due-today" t.id none, type := AlertType.dueToday,
    taskId := t.id, taskTitle := t.title, date := t.dueDate }

/-- The at-risk alert record pushed for a task. -/
def atRiskAlert (t : Task) : AlertItem :=
  { id := alertId "at-risk" t.id none, type := AlertType.atRisk,
    taskId := t.id, taskTitle := t.title, date := t.dueDate }

/-- The milestone-due-soon alert record pushed for one milestone. -/
def msDueSoonAlert (t : Task) (ms : Milestone) : AlertItem :=
  { id := alertId "milestone-due-soon" t.id (some ms.id),
    type := AlertType.milestoneDueSoon,
    taskId := t.id, taskTitle := t.title,
    milestoneId := some ms.id, milestoneName := some ms.name,
    date := ms.targetDate }

/-- The emission condition of the milestone loop for one milestone: not
Achieved, not Missed, target not before today, and today + 3 days strictly
after the target. -/
def msDueSoonCond (today : Date) (ms : Milestone) : Bool :=
  !(ms.status == MilestoneStatus.achieved || ms.status == MilestoneStatus.missed)
    && (!dateLt ms.targetDate today && dateLt ms.targetDate (addDays today 3))

/-- The effective reminder window of the at-risk rule: the source's
`task.reminderDays || 2` falls back to 2 for a missing or zero value. -/
def effReminderDays (t : Task) : Nat :=
  if t.reminderDays = 0 then 2 else t.reminderDays

/-! ## Concrete data for witnesses and counterexamples -/

/-- A deterministic stand-in for the uuid stream (injective by length). -/
def demoIds : Nat → String := fun n => String.mk (List.replicate n 'i')

/-- A plain in-progress task due 2024-06-16 with no sub-structure. -/
def demoTask : Task :=
  { id := "t1", title := "T", description := none, taskType := "Ad-hoc",
    status := TaskStatus.inProgress, priority := Priority.high,
    dueDate := ⟨2024, 6, 16⟩, startDate := none, assignee := none,
    updates := [], notes := none, subtasks := [], milestones := [],
    isRecurring := false, recurrence := none, reminderDays := 2,
    createdAt := "c0", updatedAt := "u0", completedAt := none,
    changelog := [], isPaused := none, links := [], projectId := none }

/-- A completed weekly-recurring task with two subtasks and one milestone. -/
def demoRecurringTask : Task :=
  { demoTask with
    status := TaskStatus.complete
    completedAt := some "done-at"
    isRecurring := true
    recurrence := some ⟨"Weekly", 1, none, none, 3⟩
    subtasks := [⟨"s1", "A", SubtaskStatus.done, none⟩, ⟨"s2", "B", SubtaskStatus.open, none⟩]
    milestones := [⟨"m1", "M", ⟨2024, 6, 20⟩, MilestoneStatus.upcoming⟩] }

/-- A task far from due carrying a single upcoming milestone with the given
target date. -/
def demoMilestoneTask (d : Date) : Task :=
  { demoTask with
    dueDate := ⟨2024, 7, 10⟩
    milestones := [⟨"m1", "M", d, MilestoneStatus.upcoming⟩] }

/-- A task far from due whose single upcoming milestone has the empty
string as id. -/
def demoEmptyMsIdTask : Task :=
  { demoTask with
    dueDate := ⟨2024, 7, 10⟩
    milestones := [⟨"", "M", ⟨2024, 6, 16⟩, MilestoneStatus.upcoming⟩] }

/-- The `demoTask` variant with `reminderDays = 0`. -/
def demoZeroReminderTask : Task :=
  { demoTask with reminderDays := 0 }

/-- The `demoTask` variant linked to project `p1`. -/
def demoLinkedTask : Task :=
  { demoTask with projectId := some "p1" }

/-- A project with id `p1`. -/
def demoProject : Project :=
  { id := "p1", name := "P", description := none, status := "Active",
    priority := Priority.high, targetDate := ⟨2024, 7, 1⟩, startDate := none,
    owner := none, links := [], createdAt := "c0", updatedAt := "u0" }

/-! ## Shared lemmas -/

/-- The loop body of `checkAndGenerateRecurring` leaves the accumulator
alone when the guard fails. -/
theorem recStep_of_guard_false {u : Task} (now : String) (ids : Nat → String) (acc : List Task)
    (h : recGuard u = false) : recStep now ids acc u = acc := by
  simp [recStep, h]

/-- The regeneration patch of a recurring task carries `status: 'Not Started'`. -/
theorem generateNextInstance_status (now : String) {u : Task}
    (hrec : u.isRecurring = true) {cfg : RecurrenceConfig} (hcfg : u.recurrence = some cfg) :
    (generateNextInstance now u).status = some TaskStatus.notStarted := by
  simp [generateNextInstance, hrec, hcfg]

/-- The regeneration patch of a recurring task always sets a due date. -/
theorem generateNextInstance_dueDate_isSome (now : String) {u : Task}
    (hrec : u.isRecurring = true) {cfg : RecurrenceConfig} (hcfg : u.recurrence = some cfg) :
    (generateNextInstance now u).dueDate.isSome = true := by
  simp [generateNextInstance, hrec, hcfg]

/-- Unpacking the driving-rule guard. -/
theorem recGuard_parts {u : Task} (h : recGuard u = true) :
    u.isRecurring = true ∧ (∃ cfg, u.recurrence = some cfg) ∧ u.status = TaskStatus.complete := by
  simp only [recGuard, Bool.and_eq_true, beq_iff_eq, Option.isSome_iff_exists] at h
  exact ⟨h.1.1.1, h.1.2, h.2⟩

/-- The merged task's status is the patched one when present. -/
theorem applyUpdate_status (now : String) (ids : Nat → String) (t : Task) (p : Patch) :
    (applyUpdate now ids t p).status = p.status.getD t.status := rfl

/-- A patch never changes the task id. -/
theorem applyUpdate_id (now : String) (ids : Nat → String) (t : Task) (p : Patch) :
    (applyUpdate now ids t p).id = t.id := rfl

/-- A task whose status is Not Started fails the driving-rule guard. -/
theorem recGuard_false_of_notStarted {t : Task} (h : t.status = TaskStatus.notStarted) :
    recGuard t = false := by
  simp [recGuard, h]

/-- Main invariant of the recurrence sweep: if every guarded task of the
accumulator still has a guarded task with its id among those left to
process, then after the fold no task passes the guard. -/
theorem recFold_no_guard (now : String) (ids : Nat → String) :
    ∀ (rest acc : List Task),
      (∀ t ∈ acc, recGuard t = true → ∃ u ∈ rest, recGuard u = true ∧ u.id = t.id) →
      ∀ t ∈ List.foldl (recStep now ids) acc rest, recGuard t = false := by
  intro rest
  induction rest with
  | nil =>
    intro acc h t ht
    simp only [List.foldl_nil] at ht
    by_contra hg
    rw [Bool.not_eq_false] at hg
    obtain ⟨u, hu, _⟩ := h t ht hg
    exact absurd hu (List.not_mem_nil u)
  | cons u rest ih =>
    intro acc h t ht
    rw [List.foldl_cons] at ht
    refine ih (recStep now ids acc u) ?_ t ht
    intro t' ht' hg'
    by_cases hgu : recGuard u = true
    · obtain ⟨hrec, ⟨cfg, hcfg⟩, _⟩ := recGuard_parts hgu
      have hdue := generateNextInstance_dueDate_isSome now hrec hcfg
      rw [show recStep now ids acc u = updateTask now ids acc u.id (generateNextInstance now u) by
        simp [recStep, hgu, hdue]] at ht'
      simp only [updateTask, List.mem_map] at ht'
      obtain ⟨t0, ht0, heq⟩ := ht'
      by_cases hid : t0.id = u.id
      · rw [if_pos hid] at heq
        exfalso
        have hst : t'.status = TaskStatus.notStarted := by
          rw [← heq, applyUpdate_status, generateNextInstance_status now hrec hcfg]
          rfl
        rw [recGuard_false_of_notStarted hst] at hg'
        exact Bool.false_ne_true hg'
      · rw [if_neg hid] at heq
        subst heq
        obtain ⟨w, hw, hwg, hwid⟩ := h t0 ht0 hg'
        rcases List.mem_cons.mp hw with hwu | hwrest
        · exact absurd (hwu ▸ hwid).symm hid
        · exact ⟨w, hwrest, hwg, hwid⟩
    · rw [recStep_of_guard_false now ids acc (Bool.not_eq_true _ ▸ hgu)] at ht'
      obtain ⟨w, hw, hwg, hwid⟩ := h t' ht' hg'
      rcases List.mem_cons.mp hw with hwu | hwrest
      · exact absurd (hwu ▸ hwg) (by simpa using hgu)
      · exact ⟨w, hwrest, hwg, hwid⟩

/-- A sweep over tasks that all fail the guard does nothing. -/
theorem foldl_recStep_of_no_guard (now : String) (ids : Nat → String) :
    ∀ (l acc : List Task), (∀ u ∈ l, recGuard u = false) →
      List.foldl (recStep now ids) acc l = acc := by
  intro l
  induction l with
  | nil => intro acc _; rfl
  | cons u rest ih =>
    intro acc h
    rw [List.foldl_cons, recStep_of_guard_false now ids acc (h u (List.mem_cons_self u rest))]
    exact ih acc fun w hw => h w (List.mem_cons_of_mem u hw)

/-- Rewriting a guarded filterMap as filter-then-map. -/
theorem filterMap_ite {α β : Type} (p : α → Bool) (g : α → β) :
    ∀ l : List α, (l.filterMap fun a => if p a then some (g a) else none) = (l.filter p).map g := by
  intro l
  induction l with
  | nil => rfl
  | cons a l ih =>
    rw [List.filterMap_cons, List.filter_cons]
    cases hp : p a <;> simp [hp, ih]

/-- The milestone loop emits exactly the milestones passing
`msDueSoonCond`, each as its `msDueSoonAlert`. -/
theorem milestoneAlerts_eq (today : Date) (t : Task) :
    milestoneAlerts today t
      = (t.milestones.filter (msDueSoonCond today)).map (msDueSoonAlert t) := by
  unfold milestoneAlerts
  rw [← filterMap_ite (msDueSoonCond today) (msDueSoonAlert t) t.milestones]
  congr 1
  funext ms
  cases hA : (ms.status == MilestoneStatus.achieved || ms.status == MilestoneStatus.missed)
  · cases hB : (!dateLt ms.targetDate today && dateLt ms.targetDate (addDays today 3)) <;>
      simp [msDueSoonCond, msDueSoonAlert, hA, hB]
  · simp [msDueSoonCond, hA]

/-- Alerts of a single task that is neither Complete nor Cancelled. -/
theorem computeAlerts_single (today : Date) (t : Task)
    (h1 : t.status ≠ TaskStatus.complete) (h2 : t.status ≠ TaskStatus.cancelled) :
    computeAlerts today [t] = dueAlerts today t ++ milestoneAlerts today t := by
  simp [computeAlerts, taskAlerts, h1, h2]

/-- Length of one present-key fragment. -/
theorem optEntry_length {α : Type} (name old : String) (new : α → String) (o : Option α) :
    (optEntry name old new o).length = if o.isSome then 1 else 0 := by
  cases o <;> rfl

/-- A present-key fragment only carries its own field name. -/
theorem optEntry_fst {α : Type} (name old : String) (new : α → String) (o : Option α) :
    ∀ x ∈ optEntry name old new o, x.1 = name := by
  cases o <;> simp [optEntry]

/-- As many changelog entries as field triples. -/
theorem mkEntries_length (ids : Nat → String) (now : String) :
    ∀ (k : Nat) (l : List (String × String × String)), (mkEntries ids now k l).length = l.length := by
  intro k l
  induction l generalizing k with
  | nil => rfl
  | cons e l ih => cases e with | mk f r => simp [mkEntries, ih]

/-- All synthesized entries are stamped with the current instant. -/
theorem mkEntries_timestamp (ids : Nat → String) (now : String) :
    ∀ (k : Nat) (l : List (String × String × String)), ∀ e ∈ mkEntries ids now k l, e.timestamp = now := by
  intro k l
  induction l generalizing k with
  | nil => intro e he; exact absurd he (List.not_mem_nil e)
  | cons x l ih =>
    intro e he
    cases x with | mk f r =>
    cases r with | mk o n =>
    rcases List.mem_cons.mp he with h | h
    · subst h; rfl
    · exact ih (k + 1) e h

/-- The synthesized entries record exactly the given field triples in
order. -/
theorem mkEntries_triples (ids : Nat → String) (now : String) :
    ∀ (k : Nat) (l : List (String × String × String)),
      (mkEntries ids now k l).map (fun e => (e.field, e.oldValue, e.newValue)) = l := by
  intro k l
  induction l generalizing k with
  | nil => rfl
  | cons x l ih =>
    cases x with | mk f r =>
    cases r with | mk o n =>
    simp [mkEntries, ih]

/-- The synthesized entries draw consecutive fresh ids from the uuid
stream. -/
theorem mkEntries_ids (ids : Nat → String) (now : String) :
    ∀ (k : Nat) (l : List (String × String × String)),
      (mkEntries ids now k l).map (fun e => e.id) = (List.range' k l.length).map ids := by
  intro k l
  induction l generalizing k with
  | nil => rfl
  | cons x l ih =>
    cases x with | mk f r =>
    cases r with | mk o n =>
    simp [mkEntries, List.range', ih]

/-- The number of field triples equals the count of present keys. -/
theorem presentFields_length (t : Task) (p : Patch) :
    (presentFields t p).length = presentCount p := by
  simp [presentFields, presentCount, optEntry_length, Nat.add_assoc]

/-- Every single task-level mutation only ever appends to the changelog. -/
theorem applyTaskMutation_changelog (m : TaskMutation) (t : Task) :
    ∃ tail, (applyTaskMutation m t).changelog = t.changelog ++ tail := by
  cases m with
  | update now ids p => exact ⟨patchEntries now ids t p, rfl⟩
  | subAdd now sid title status dueDate => exact ⟨[], by simp [applyTaskMutation, addSubtaskTask]⟩
  | subUpdate now sid u => exact ⟨[], by simp [applyTaskMutation, updateSubtaskTask]⟩
  | subDelete now sid => exact ⟨[], by simp [applyTaskMutation, deleteSubtaskTask]⟩
  | subToggle now sid => exact ⟨[], by simp [applyTaskMutation, toggleSubtaskTask]⟩
  | msAdd now mid name targetDate status => exact ⟨[], by simp [applyTaskMutation, addMilestoneTask]⟩
  | msUpdate now mid u => exact ⟨[], by simp [applyTaskMutation, updateMilestoneTask]⟩
  | msDelete now mid => exact ⟨[], by simp [applyTaskMutation, deleteMilestoneTask]⟩
  | logUpdate now uid cid text => exact ⟨[⟨cid, now, "update", "", text⟩], rfl⟩

/-- Any sequence of task-level mutations only ever appends to the
changelog. -/
theorem applyTaskMutations_changelog (ms : List TaskMutation) :
    ∀ t : Task, ∃ tail, (applyTaskMutations ms t).changelog = t.changelog ++ tail := by
  induction ms with
  | nil => intro t; exact ⟨[], by simp [applyTaskMutations]⟩
  | cons m ms ih =>
    intro t
    obtain ⟨tail1, h1⟩ := applyTaskMutation_changelog m t
    obtain ⟨tail2, h2⟩ := ih (applyTaskMutation m t)
    refine ⟨tail1 ++ tail2, ?_⟩
    rw [applyTaskMutations, List.foldl_cons]
    rw [show List.foldl (fun x m => applyTaskMutation m x) (applyTaskMutation m t) ms
        = applyTaskMutations ms (applyTaskMutation m t) from rfl]
    rw [h2, h1, List.append_assoc]

/-- Mapping a guarded rewrite over a list none of whose members satisfy the
guard does nothing. -/
theorem map_if_eq_self {α : Type} (l : List α) (pr : α → Prop) [DecidablePred pr] (f : α → α)
    (h : ∀ a ∈ l, ¬ pr a) : (l.map fun a => if pr a then f a else a) = l := by
  have h2 : ∀ a ∈ l, (if pr a then f a else a) = id a := fun a ha => if_neg (h a ha)
  rw [List.map_congr_left h2, List.map_id]

/-- The unlink patch in full: it clears `projectId`, stamps `updatedAt`,
and appends one changelog row; everything else is untouched. -/
theorem applyUpdate_unlink (now : String) (ids : Nat → String) (t : Task) :
    applyUpdate now ids t unlinkPatch
      = { t with
          projectId := none
          updatedAt := now
          changelog := t.changelog ++ [⟨ids 0, now, "projectId", optText t.projectId, ""⟩] } := rfl

/-- Folding the unlink update over a duplicate-free list of target tasks
rewrites exactly the accumulator entries whose id occurs among the
targets. -/
theorem foldl_unlink (now : String) (ids : Nat → String) :
    ∀ (R acc : List Task), (R.map (fun t => t.id)).Nodup →
      R.foldl (fun acc t => updateTask now ids acc t.id unlinkPatch) acc
        = acc.map (fun t =>
            if t.id ∈ R.map (fun r => r.id) then applyUpdate now ids t unlinkPatch else t) := by
  intro R
  induction R with
  | nil =>
    intro acc _
    simp
  | cons r R ih =>
    intro acc hnd
    rw [List.foldl_cons, ih (updateTask now ids acc r.id unlinkPatch) (List.nodup_cons.mp hnd).2]
    rw [updateTask, List.map_map]
    apply List.map_congr_left
    intro t _
    simp only [Function.comp_apply]
    by_cases hid : t.id = r.id
    · rw [if_pos hid]
      have hid2 : (applyUpdate now ids t unlinkPatch).id = t.id := rfl
      have hnotin : r.id ∉ R.map (fun r => r.id) := (List.nodup_cons.mp hnd).1
      rw [if_neg (by rw [hid2, hid]; exact hnotin)]
      simp only [List.map_cons, List.mem_cons]
      rw [if_pos (Or.inl hid)]
    · rw [if_neg hid]
      simp only [List.map_cons, List.mem_cons]
      by_cases hin : t.id ∈ R.map (fun r => r.id)
      · rw [if_pos hin, if_pos (Or.inr hin)]
      · rw [if_neg hin, if_neg (by rintro (h | h); exact hid h; exact hin h)]

/-- The demo uuid stream never repeats an id. -/
theorem demoIds_injective : Function.Injective demoIds := by
  intro a b h
  have h2 := congrArg List.length (congrArg String.data h)
  simpa [demoIds] using h2

/-! ## Claim theorems -/

/-- C1: for a task with status Complete, `isRecurring = true`, `isPaused`
not true and a recurrence config present, applying `generateNextInstance`'s
patch through the mutation engine's per-task `updateTask` body yields a task
whose status is Not Started, whose `completedAt` is cleared, whose updates
log is empty, whose recurrence block has `cycleCount` exactly one greater
and `nextDue` equal to the computed next due date, whose `dueDate` equals
that computed date, whose subtasks are all Open with titles and order
preserved, and whose milestones are unchanged. -/
theorem recurrence_regeneration_resets (now : String) (ids : Nat → String) (t : Task)
    (cfg : RecurrenceConfig)
    (hst : t.status = TaskStatus.complete) (hrec : t.isRecurring = true)
    (hpause : t.isPaused ≠ some true) (hcfg : t.recurrence = some cfg) :
    (applyUpdate now ids t (generateNextInstance now t)).status = TaskStatus.notStarted ∧
    (applyUpdate now ids t (generateNextInstance now t)).completedAt = none ∧
    (applyUpdate now ids t (generateNextInstance now t)).updates = [] ∧
    (applyUpdate now ids t (generateNextInstance now t)).recurrence =
      some { cfg with
        lastCompleted := some now
        nextDue := some (nextDueDate t.dueDate cfg.pattern cfg.interval)
        cycleCount := cfg.cycleCount + 1 } ∧
    (applyUpdate now ids t (generateNextInstance now t)).dueDate =
      nextDueDate t.dueDate cfg.pattern cfg.interval ∧
    (applyUpdate now ids t (generateNextInstance now t)).subtasks.map (fun s => s.title) =
      t.subtasks.map (fun s => s.title) ∧
    (∀ s ∈ (applyUpdate now ids t (generateNextInstance now t)).subtasks,
      s.status = SubtaskStatus.open) ∧
    (applyUpdate now ids t (generateNextInstance now t)).milestones = t.milestones := by
  refine ⟨?_, ?_, ?_, ?_, ?_, ?_, ?_, ?_⟩ <;>
    simp [applyUpdate, generateNextInstance, hrec, hcfg, List.map_map, List.mem_map]

/-- C1 witness: the theorem applied to the concrete completed
weekly-recurring demo task. -/
theorem recurrence_regeneration_resets_witness :
    demoRecurringTask.status = TaskStatus.complete ∧
    (applyUpdate "n1" demoIds demoRecurringTask
      (generateNextInstance "n1" demoRecurringTask)).status = TaskStatus.notStarted :=
  ⟨rfl, (recurrence_regeneration_resets "n1" demoIds demoRecurringTask
    ⟨"Weekly", 1, none, none, 3⟩ rfl rfl (by decide) rfl).1⟩

/-- C2: the recurrence driving rule is idempotent: after one sweep no task
passes the `status === 'Complete'` guard any more, so a second sweep over
the first sweep's output changes nothing, whatever instant and uuid stream
it runs with. -/
theorem recurrence_driving_rule_idempotent (now₁ now₂ : String) (ids₁ ids₂ : Nat → String)
    (tasks : List Task) :
    (∀ t ∈ checkAndGenerateRecurring now₁ ids₁ tasks, recGuard t = false) ∧
    checkAndGenerateRecurring now₂ ids₂ (checkAndGenerateRecurring now₁ ids₁ tasks)
      = checkAndGenerateRecurring now₁ ids₁ tasks := by
  have hng : ∀ t ∈ checkAndGenerateRecurring now₁ ids₁ tasks, recGuard t = false := by
    apply recFold_no_guard now₁ ids₁ tasks tasks
    intro t ht hg
    exact ⟨t, ht, hg, rfl⟩
  exact ⟨hng, foldl_recStep_of_no_guard now₂ ids₂ _ _ hng⟩

/-- C2 witness: the second sweep over the regenerated demo collection is a
no-op. -/
theorem recurrence_driving_rule_idempotent_witness :
    checkAndGenerateRecurring "w2" demoIds
        (checkAndGenerateRecurring "w1" demoIds [demoRecurringTask])
      = checkAndGenerateRecurring "w1" demoIds [demoRecurringTask] :=
  (recurrence_driving_rule_idempotent "w1" "w2" demoIds demoIds [demoRecurringTask]).2

/-- C3: `updateTask` sets `completedAt` to the current instant exactly when
the patch's status is Complete and the task's current status is not
Complete; clears it whenever the patch carries a status other than
Complete; and leaves it unchanged when the patch carries no status. -/
theorem updateTask_completedAt_rule (now : String) (ids : Nat → String) (t : Task) (p : Patch) :
    (p.status = some TaskStatus.complete → t.status ≠ TaskStatus.complete →
      (applyUpdate now ids t p).completedAt = some now) ∧
    (∀ s, p.status = some s → s ≠ TaskStatus.complete →
      (applyUpdate now ids t p).completedAt = none) ∧
    (p.status = none → (applyUpdate now ids t p).completedAt = t.completedAt) := by
  refine ⟨?_, ?_, ?_⟩
  · intro h1 h2
    simp [applyUpdate, h1, h2]
  · intro s h1 h2
    simp [applyUpdate, h1, h2]
  · intro h1
    simp [applyUpdate, h1]

/-- C3 witness: completing the in-progress demo task stamps `completedAt`. -/
theorem updateTask_completedAt_rule_witness :
    (applyUpdate "n2" demoIds demoTask { status := some TaskStatus.complete }).completedAt
      = some "n2" :=
  (updateTask_completedAt_rule "n2" demoIds demoTask
    { status := some TaskStatus.complete }).1 rfl (by decide)

/-- C4 counterexample: with `reminderDays = 0` (a set value), the engine
still emits an at-risk alert for a Critical/High task due tomorrow, even
though today is not strictly after the due date minus the task's actual
`reminderDays` value — so the default does not apply only when
`reminderDays` is unset. -/
theorem atRisk_zero_reminderDays_counterexample :
    (computeAlerts ⟨2024, 6, 15⟩ [demoZeroReminderTask]).map (fun a => a.type)
      = [AlertType.atRisk] ∧
    dateLt (addDays demoZeroReminderTask.dueDate (-(demoZeroReminderTask.reminderDays : Int)))
      ⟨2024, 6, 15⟩ = false := by decide

/-- C4 (amended): per task, the due-date dimension of `computeAlerts`
emits at most one alert by first matching rule — nothing for Complete or
Cancelled tasks; overdue when the due date is strictly before today;
else due-today when it equals today; else at-risk when the priority is
Critical or High and today is strictly after the due date minus the
effective reminder window, which falls back to 2 when `reminderDays` is
unset or zero; else nothing — while the milestone alerts ride along
unchanged. -/
theorem computeAlerts_dueDate_classification (today : Date) (t : Task) :
    ((t.status = TaskStatus.complete ∨ t.status = TaskStatus.cancelled) →
      computeAlerts today [t] = []) ∧
    (t.status ≠ TaskStatus.complete → t.status ≠ TaskStatus.cancelled →
      (dateLt t.dueDate today = true →
        computeAlerts today [t] = overdueAlert t :: milestoneAlerts today t) ∧
      (dateLt t.dueDate today = false → dateEq t.dueDate today = true →
        computeAlerts today [t] = dueTodayAlert t :: milestoneAlerts today t) ∧
      (dateLt t.dueDate today = false → dateEq t.dueDate today = false →
        (((t.priority = Priority.critical ∨ t.priority = Priority.high) ∧
          dateLt (addDays t.dueDate (-(effReminderDays t : Int))) today = true) →
          computeAlerts today [t] = atRiskAlert t :: milestoneAlerts today t) ∧
        (¬((t.priority = Priority.critical ∨ t.priority = Priority.high) ∧
          dateLt (addDays t.dueDate (-(effReminderDays t : Int))) today = true) →
          computeAlerts today [t] = milestoneAlerts today t))) := by
  constructor
  · rintro (h | h) <;> simp [computeAlerts, taskAlerts, h]
  · intro h1 h2
    rw [computeAlerts_single today t h1 h2]
    refine ⟨?_, ?_, ?_⟩
    · intro hlt
      simp [dueAlerts, hlt, overdueAlert]
    · intro hlt heq
      simp [dueAlerts, hlt, heq, dueTodayAlert]
    · intro hlt heq
      constructor
      · rintro ⟨hp, hw⟩
        simp only [effReminderDays] at hw
        push_cast at hw
        rcases hp with hp | hp <;>
          simp [dueAlerts, hlt, heq, hp, hw, atRiskAlert]
      · intro hn
        by_cases hp : t.priority = Priority.critical ∨ t.priority = Priority.high
        · have hw : dateLt (addDays t.dueDate (-(effReminderDays t : Int))) today = false := by
            cases hx : dateLt (addDays t.dueDate (-(effReminderDays t : Int))) today
            · rfl
            · exact absurd ⟨hp, hx⟩ hn
          simp only [effReminderDays] at hw
          push_cast at hw
          rcases hp with hp | hp <;> simp [dueAlerts, hlt, heq, hp, hw]
        · have hp1 : t.priority ≠ Priority.critical := fun h => hp (Or.inl h)
          have hp2 : t.priority ≠ Priority.high := fun h => hp (Or.inr h)
          simp [dueAlerts, hlt, heq, hp1, hp2]

/-- C4 witness: the overdue case of the amended rule on the demo task two
days past due. -/
theorem computeAlerts_dueDate_classification_witness :
    computeAlerts ⟨2024, 6, 17⟩ [demoTask]
      = overdueAlert demoTask :: milestoneAlerts ⟨2024, 6, 17⟩ demoTask :=
  ((computeAlerts_dueDate_classification ⟨2024, 6, 17⟩ demoTask).2
    (by decide) (by decide)).1 (by decide)

/-- C5: for a task that is neither Complete nor Cancelled, the milestone
dimension of `computeAlerts` emits one milestone-due-soon alert carrying
each milestone's id and name exactly for the milestones that are neither
Achieved nor Missed, not before today, and strictly inside the
`today + 3 days` window — independently of the due-date dimension — and at
the boundary with today 2024-06-15 an upcoming milestone at 2024-06-17
emits while one at 2024-06-19 does not. -/
theorem computeAlerts_milestone_dimension (today : Date) (t : Task)
    (h1 : t.status ≠ TaskStatus.complete) (h2 : t.status ≠ TaskStatus.cancelled) :
    computeAlerts today [t]
      = dueAlerts today t
        ++ (t.milestones.filter (msDueSoonCond today)).map (msDueSoonAlert t) ∧
    (computeAlerts ⟨2024, 6, 15⟩ [demoMilestoneTask ⟨2024, 6, 17⟩]).map
        (fun a => (a.type, a.milestoneId, a.milestoneName))
      = [(AlertType.milestoneDueSoon, some "m1", some "M")] ∧
    computeAlerts ⟨2024, 6, 15⟩ [demoMilestoneTask ⟨2024, 6, 19⟩] = [] := by
  refine ⟨?_, by decide, by decide⟩
  rw [computeAlerts_single today t h1 h2, milestoneAlerts_eq]

/-- C5 witness: the milestone decomposition on the demo task with an
upcoming milestone two days out. -/
theorem computeAlerts_milestone_dimension_witness :
    computeAlerts ⟨2024, 6, 15⟩ [demoMilestoneTask ⟨2024, 6, 17⟩]
      = dueAlerts ⟨2024, 6, 15⟩ (demoMilestoneTask ⟨2024, 6, 17⟩)
        ++ ((demoMilestoneTask ⟨2024, 6, 17⟩).milestones.filter (msDueSoonCond ⟨2024, 6, 15⟩)).map
            (msDueSoonAlert (demoMilestoneTask ⟨2024, 6, 17⟩)) :=
  (computeAlerts_milestone_dimension ⟨2024, 6, 15⟩ (demoMilestoneTask ⟨2024, 6, 17⟩)
    (by decide) (by decide)).1

/-- C6: one `updateTask` call appends, after all existing changelog
entries, exactly one entry per key present in the patch except the
reserved `updatedAt` — each stamped with the current instant, recording the
field name and the prior and new values rendered as text, and drawing
consecutive fresh ids from the uuid stream (pairwise distinct when the
stream is injective) — and across every sequence of task-level mutations
the changelog only ever grows by appending, so its length is monotonically
non-decreasing and no written entry ever changes. -/
theorem updateTask_changelog_audit (now : String) (ids : Nat → String) (t : Task) (p : Patch) :
    (applyUpdate now ids t p).changelog = t.changelog ++ patchEntries now ids t p ∧
    (patchEntries now ids t p).length = presentCount p ∧
    (∀ e ∈ patchEntries now ids t p, e.timestamp = now) ∧
    (patchEntries now ids t p).map (fun e => (e.field, e.oldValue, e.newValue))
      = presentFields t p ∧
    (∀ e ∈ patchEntries now ids t p, e.field ≠ "updatedAt") ∧
    (patchEntries now ids t p).map (fun e => e.id) = (List.range' 0 (presentCount p)).map ids ∧
    (Function.Injective ids → ((patchEntries now ids t p).map (fun e => e.id)).Nodup) ∧
    (∀ ms : List TaskMutation,
      ∃ tail, (applyTaskMutations ms t).changelog = t.changelog ++ tail) ∧
    (∀ ms : List TaskMutation,
      t.changelog.length ≤ (applyTaskMutations ms t).changelog.length) := by
  have hids : (patchEntries now ids t p).map (fun e => e.id)
      = (List.range' 0 (presentCount p)).map ids := by
    rw [patchEntries, mkEntries_ids, presentFields_length]
  refine ⟨rfl, ?_, ?_, ?_, ?_, hids, ?_, ?_, ?_⟩
  · rw [patchEntries, mkEntries_length, presentFields_length]
  · exact mkEntries_timestamp ids now 0 (presentFields t p)
  · exact mkEntries_triples ids now 0 (presentFields t p)
  · intro e he
    have h3 := mkEntries_triples ids now 0 (presentFields t p)
    have hmem : (e.field, e.oldValue, e.newValue) ∈ presentFields t p := by
      rw [← h3]
      exact List.mem_map_of_mem _ he
    have hname : ∀ x ∈ presentFields t p, x.1 ≠ "updatedAt" := by
      intro x hx
      unfold presentFields at hx
      repeat rw [List.mem_append] at hx
      rcases hx with ((((((((hx | hx) | hx) | hx) | hx) | hx) | hx) | hx) | hx) | hx <;>
        (rw [optEntry_fst _ _ _ _ _ hx]; decide)
    exact hname _ hmem
  · intro hinj
    rw [hids]
    exact List.Nodup.map hinj (List.nodup_range' 0 (presentCount p))
  · exact fun ms => applyTaskMutations_changelog ms t
  · intro ms
    obtain ⟨tail, h⟩ := applyTaskMutations_changelog ms t
    rw [h, List.length_append]
    exact Nat.le_add_right _ _

/-- C6 witness: distinct entry ids for a two-field patch under the
injective demo uuid stream. -/
theorem updateTask_changelog_audit_witness :
    ((patchEntries "n3" demoIds demoTask
      { title := some "T2", status := some TaskStatus.complete }).map (fun e => e.id)).Nodup :=
  (updateTask_changelog_audit "n3" demoIds demoTask
    { title := some "T2", status := some TaskStatus.complete }).2.2.2.2.2.2.1 demoIds_injective

/-- C7: for every current due date and positive interval, the next due
date is the current one plus `interval` days for Daily and identically for
Custom, `interval` weeks for Weekly, `2 * interval` weeks for Bi-weekly
(so Bi-weekly with interval n equals Weekly with interval 2n on any start
date), `interval` calendar months for Monthly with calendar-correct
end-of-month roll-forward (2024-01-31 plus one month is 2024-02-29),
`interval` quarters for Quarterly, and exactly one week for any
unrecognized pattern. -/
theorem nextDueDate_pattern_offsets (cur : Date) (n : Nat) (hpos : 0 < n) :
    nextDueDate cur "Daily" n = addDays cur n ∧
    nextDueDate cur "Custom" n = addDays cur n ∧
    nextDueDate cur "Weekly" n = addWeeks cur n ∧
    nextDueDate cur "Bi-weekly" n = addWeeks cur (2 * n) ∧
    nextDueDate cur "Bi-weekly" n = nextDueDate cur "Weekly" (2 * n) ∧
    nextDueDate cur "Monthly" n = addMonths cur n ∧
    nextDueDate ⟨2024, 1, 31⟩ "Monthly" 1 = ⟨2024, 2, 29⟩ ∧
    nextDueDate cur "Quarterly" n = addQuarters cur n ∧
    (∀ p : String,
      p ≠ "Daily" → p ≠ "Weekly" → p ≠ "Bi-weekly" → p ≠ "Monthly" →
      p ≠ "Quarterly" → p ≠ "Custom" → nextDueDate cur p n = addWeeks cur 1) := by
  refine ⟨?_, ?_, ?_, ?_, ?_, ?_, ?_, ?_, ?_⟩
  · simp [nextDueDate]
  · simp [nextDueDate]
  · simp [nextDueDate]
  · simp [nextDueDate]
  · simp [nextDueDate]
  · simp [nextDueDate]
  · decide
  · simp [nextDueDate]
  · intro p h1 h2 h3 h4 h5 h6
    simp [nextDueDate, h1, h2, h3, h4, h5, h6]

/-- C7 witness: the end-of-month roll-forward instance at interval 1. -/
theorem nextDueDate_pattern_offsets_witness :
    0 < 1 ∧ nextDueDate ⟨2024, 1, 31⟩ "Monthly" 1 = ⟨2024, 2, 29⟩ :=
  ⟨by decide, (nextDueDate_pattern_offsets ⟨2024, 1, 31⟩ 1 (by decide)).2.2.2.2.2.2.1⟩

/-- C8 counterexample: a milestone whose id is the empty string is emitted
with alert id `milestone-due-soon:t1`, not the claimed
`{type}:{taskId}:{milestoneId}` form (which would end in a colon), because
`alertId` drops a falsy `extra`. -/
theorem alertId_empty_milestoneId_counterexample :
    (computeAlerts ⟨2024, 6, 15⟩ [demoEmptyMsIdTask]).map (fun a => (a.type, a.milestoneId, a.id))
      = [(AlertType.milestoneDueSoon, some "", "milestone-due-soon:t1")] ∧
    "milestone-due-soon:t1" ≠ "milestone-due-soon" ++ ":" ++ "t1" ++ ":" ++ "" := by decide

/-- C8 (amended): `computeAlerts` is a pure function of the task list and
the reified current day, so recomputation with the same inputs returns the
identical list; every due-date alert's id is `{type}:{taskId}` with no
milestone id attached, and every milestone alert's id is
`{type}:{taskId}:{milestoneId}` when the milestone id is non-empty,
degenerating to `{type}:{taskId}` when it is the empty string. -/
theorem computeAlerts_deterministic_id_scheme (today : Date) (tasks : List Task) :
    computeAlerts today tasks = computeAlerts today tasks ∧
    ∀ a ∈ computeAlerts today tasks,
      ((a.type = AlertType.overdue ∨ a.type = AlertType.dueToday ∨ a.type = AlertType.atRisk) →
        a.milestoneId = none ∧ a.id = a.type.text ++ ":" ++ a.taskId) ∧
      (a.type = AlertType.milestoneDueSoon →
        ∃ m, a.milestoneId = some m ∧
          a.id = if m = "" then a.type.text ++ ":" ++ a.taskId
                 else a.type.text ++ ":" ++ a.taskId ++ ":" ++ m) := by
  refine ⟨rfl, ?_⟩
  intro a ha
  simp only [computeAlerts, List.mem_flatMap] at ha
  obtain ⟨t, _, hta⟩ := ha
  unfold taskAlerts at hta
  by_cases hs : (t.status == TaskStatus.complete || t.status == TaskStatus.cancelled) = true
  · rw [if_pos hs] at hta
    exact absurd hta (List.not_mem_nil a)
  · rw [if_neg hs] at hta
    rcases List.mem_append.mp hta with hd | hm
    · unfold dueAlerts at hd
      repeat' split at hd
      all_goals
        first
        | (simp only [List.mem_singleton] at hd
           subst hd
           exact ⟨fun _ => ⟨rfl, by simp [alertId, AlertType.text]⟩, by simp [AlertType.text]⟩)
        | simp at hd
    · unfold milestoneAlerts at hm
      rw [List.mem_filterMap] at hm
      obtain ⟨ms, _, hf⟩ := hm
      split at hf
      · exact absurd hf (by simp)
      · split at hf
        · rw [Option.some_inj] at hf
          subst hf
          refine ⟨by simp [AlertType.text], fun _ => ⟨ms.id, rfl, ?_⟩⟩
          by_cases hend : ms.id = "" <;>
            simp [alertId, AlertType.text, hend, String.append_assoc]
        · exact absurd hf (by simp)

/-- C8 witness: the id scheme instantiated on the overdue alert of the
demo task. -/
theorem computeAlerts_deterministic_id_scheme_witness :
    (overdueAlert demoTask).milestoneId = none ∧
    (overdueAlert demoTask).id
      = (overdueAlert demoTask).type.text ++ ":" ++ (overdueAlert demoTask).taskId :=
  ((computeAlerts_deterministic_id_scheme ⟨2024, 6, 17⟩ [demoTask]).2
    (overdueAlert demoTask) (by decide)).1 (Or.inl rfl)

/-- C9 counterexample: updating a subtask id that does not exist on an
existing task is not an exact no-op — the collection changes because the
task's `updatedAt` is refreshed. -/
theorem missing_subtaskId_touches_updatedAt_counterexample :
    (∀ s ∈ demoRecurringTask.subtasks, s.id ≠ "missing") ∧
    updateSubtask "now9" [demoRecurringTask] "t1" "missing" {} ≠ [demoRecurringTask] := by decide

/-- C9 (amended): mutating with a task id that is not present is an exact
silent no-op for all six operations; with an existing task but a missing
subtask or milestone id, the targeted sub-collection is unchanged and no
error is raised, but the parent task's `updatedAt` is still refreshed. -/
theorem mutation_missing_target_noop (now : String) (ids : Nat → String) (tasks : List Task)
    (tid sid mid : String) (p : Patch) (u : SubtaskPatch) (v : MilestonePatch) :
    ((∀ t ∈ tasks, t.id ≠ tid) →
      updateTask now ids tasks tid p = tasks ∧
      deleteTask tasks tid = tasks ∧
      updateSubtask now tasks tid sid u = tasks ∧
      deleteSubtask now tasks tid sid = tasks ∧
      updateMilestone now tasks tid mid v = tasks ∧
      deleteMilestone now tasks tid mid = tasks) ∧
    ((∀ t ∈ tasks, ∀ s ∈ t.subtasks, s.id ≠ sid) →
      updateSubtask now tasks tid sid u
        = tasks.map (fun t => if t.id = tid then { t with updatedAt := now } else t) ∧
      deleteSubtask now tasks tid sid
        = tasks.map (fun t => if t.id = tid then { t with updatedAt := now } else t)) ∧
    ((∀ t ∈ tasks, ∀ m ∈ t.milestones, m.id ≠ mid) →
      updateMilestone now tasks tid mid v
        = tasks.map (fun t => if t.id = tid then { t with updatedAt := now } else t) ∧
      deleteMilestone now tasks tid mid
        = tasks.map (fun t => if t.id = tid then { t with updatedAt := now } else t)) := by
  refine ⟨?_, ?_, ?_⟩
  · intro h
    refine ⟨?_, ?_, ?_, ?_, ?_, ?_⟩
    · exact map_if_eq_self tasks (fun t => t.id = tid) _ h
    · exact List.filter_eq_self.mpr fun t ht => by simpa using h t ht
    · exact map_if_eq_self tasks (fun t => t.id = tid) _ h
    · exact map_if_eq_self tasks (fun t => t.id = tid) _ h
    · exact map_if_eq_self tasks (fun t => t.id = tid) _ h
    · exact map_if_eq_self tasks (fun t => t.id = tid) _ h
  · intro h
    constructor
    · apply List.map_congr_left
      intro t ht
      by_cases hid : t.id = tid
      · rw [if_pos hid, if_pos hid, updateSubtaskTask,
          map_if_eq_self t.subtasks (fun s => s.id = sid) _ (h t ht)]
      · rw [if_neg hid, if_neg hid]
    · apply List.map_congr_left
      intro t ht
      by_cases hid : t.id = tid
      · rw [if_pos hid, if_pos hid, deleteSubtaskTask,
          List.filter_eq_self.mpr fun s hs => by simpa using h t ht s hs]
      · rw [if_neg hid, if_neg hid]
  · intro h
    constructor
    · apply List.map_congr_left
      intro t ht
      by_cases hid : t.id = tid
      · rw [if_pos hid, if_pos hid, updateMilestoneTask,
          map_if_eq_self t.milestones (fun m => m.id = mid) _ (h t ht)]
      · rw [if_neg hid, if_neg hid]
    · apply List.map_congr_left
      intro t ht
      by_cases hid : t.id = tid
      · rw [if_pos hid, if_pos hid, deleteMilestoneTask,
          List.filter_eq_self.mpr fun m hm => by simpa using h t ht m hm]
      · rw [if_neg hid, if_neg hid]

/-- C9 witness: updating a missing task id leaves the demo collection
exactly unchanged. -/
theorem mutation_missing_target_noop_witness :
    updateTask "n4" demoIds [demoTask] "zzz" {} = [demoTask] :=
  ((mutation_missing_target_noop "n4" demoIds [demoTask] "zzz" "s" "m" {} {} {}).1
    (by decide)).1

/-- C10 counterexample: deleting the demo project does not leave the
referencing task changed only in `projectId` — the result differs from the
merely-unlinked task because `updatedAt` is refreshed and a changelog entry
is appended. -/
theorem project_delete_changelog_counterexample :
    demoLinkedTask.projectId = some "p1" ∧
    (handleDelete "now10" demoIds [demoProject] [demoLinkedTask] "p1").2
      ≠ [{ demoLinkedTask with projectId := none }] := by decide

/-- C10 (amended): with unique task ids, deleting a project removes
exactly the projects carrying its id and maps each task referencing it
through the unlink update — which clears `projectId`, stamps `updatedAt`
with the current instant, and appends one changelog entry, leaving every
other field alone — while tasks not referencing it are untouched and no
task is deleted. -/
theorem project_delete_unlinks_tasks (now : String) (ids : Nat → String)
    (projects : List Project) (tasks : List Task) (pid : String)
    (hnd : (tasks.map (fun t => t.id)).Nodup) :
    (handleDelete now ids projects tasks pid).1 = projects.filter (fun pr => pr.id ≠ pid) ∧
    (handleDelete now ids projects tasks pid).2
      = tasks.map (fun t =>
          if t.projectId = some pid then applyUpdate now ids t unlinkPatch else t) ∧
    (handleDelete now ids projects tasks pid).2.length = tasks.length ∧
    (∀ t : Task, applyUpdate now ids t unlinkPatch
      = { t with
          projectId := none
          updatedAt := now
          changelog := t.changelog ++ [⟨ids 0, now, "projectId", optText t.projectId, ""⟩] }) := by
  have hndR : ((tasks.filter (fun t => t.projectId = some pid)).map (fun t => t.id)).Nodup :=
    List.Nodup.sublist (List.Sublist.map _ (List.filter_sublist tasks)) hnd
  have h2 : (handleDelete now ids projects tasks pid).2
      = tasks.map (fun t =>
          if t.projectId = some pid then applyUpdate now ids t unlinkPatch else t) := by
    show (tasks.filter (fun t => t.projectId = some pid)).foldl
        (fun acc t => updateTask now ids acc t.id unlinkPatch) tasks = _
    rw [foldl_unlink now ids _ tasks hndR]
    apply List.map_congr_left
    intro t ht
    congr 1
    simp only [List.mem_map, List.mem_filter, eq_iff_iff]
    constructor
    · rintro ⟨r, ⟨hrmem, hrp⟩, hrid⟩
      have hrt : r = t := List.inj_on_of_nodup_map hnd hrmem ht hrid
      subst hrt
      exact of_decide_eq_true hrp
    · intro hp
      exact ⟨t, ⟨ht, decide_eq_true hp⟩, rfl⟩
  refine ⟨rfl, h2, ?_, fun t => rfl⟩
  rw [h2, List.length_map]

/-- C10 witness: deleting the demo project preserves the task count. -/
theorem project_delete_unlinks_tasks_witness :
    (handleDelete "n5" demoIds [demoProject] [demoLinkedTask] "p1").2.length
      = [demoLinkedTask].length :=
  (project_delete_unlinks_tasks "n5" demoIds [demoProject] [demoLinkedTask] "p1"
    (by decide)).2.2.1

end WorkTracker
